import Mathlib

/-!
Shallow embedding of `src/ethocounter.py` (dewuem/ethocounter), a terminal
key-press timestamping tool, together with theorems checking the
natural-language specification against it.

The script is a single file: `parse_time` converts the observation-time
argument, module-level code counts existing output files to pick a run index,
`main` runs two loops under curses (a waiting loop that accepts the first
alphanumeric key, then a recording loop that timestamps key presses, appends
interval deltas per key, and stops on the key P or on timeout), and after the
loops the per-key delta lists are summed, the empty-string key is removed, and
two CSV files are written by `write_csv`.

Key events are modelled as pairs of the elapsed milliseconds computed at that
loop iteration (the wall clock is external input) and the key string returned
by getkey. Iterations where getkey raises (no input pending) change nothing
and are not modelled.
-/

namespace Ethocounter

/-- Python str.isdigit restricted to ASCII digits. The extra forms accepted by
int() itself (signs, surrounding whitespace, underscores) are not modelled;
no claim below depends on such inputs. -/
def isDigitStr (s : String) : Bool :=
  !s.data.isEmpty && s.data.all Char.isDigit

/-- Numeric value of a digit string, as computed by int() on all-digit input. -/
def digitsVal (cs : List Char) : Nat :=
  cs.foldl (fun a c => a * 10 + (c.toNat - 48)) 0

/-- Models int() applied to one field of split(":"): succeeds exactly on
nonempty all-digit fields (see the caveat on isDigitStr). -/
def digitsToNat? (cs : List Char) : Option Nat :=
  if !cs.isEmpty && cs.all Char.isDigit then some (digitsVal cs) else none

/-- Character at index i, if present. -/
def digitAt (cs : List Char) (i : Nat) : Bool :=
  match cs.get? i with
  | some c => c.isDigit
  | none => false

/-- The character at index i exists and equals c. -/
def charAtIs (cs : List Char) (i : Nat) (c : Char) : Bool :=
  cs.get? i == some c

/-- Models the regex test in parse_time, src line 65: re.match of the pattern
two digits, colon, two digits, colon, two digits. re.match anchors only at the
start, so this is a prefix test and the rest of the string is unconstrained. -/
def hhmmssStart (s : String) : Bool :=
  digitAt s.data 0 && digitAt s.data 1 && charAtIs s.data 2 ':' &&
  digitAt s.data 3 && digitAt s.data 4 && charAtIs s.data 5 ':' &&
  digitAt s.data 6 && digitAt s.data 7

/-- Python str.split on the colon separator; the empty string splits to one
empty field, matching Python. -/
def splitOnColon : List Char → List (List Char)
  | [] => [[]]
  | x :: rest =>
    match splitOnColon rest with
    | [] => [[]]
    | h :: t => if x = ':' then [] :: h :: t else (x :: h) :: t

/-- Models parse_time, src lines 63 to 70. If the prefix regex matches, the
string is split on colons and the three fields are converted by int(); a field
count other than three or a failing int() raises ValueError (modelled as an
error value, the message texts of those two stand in for the Python ones).
Otherwise an all-digit string converts directly; otherwise the explicit
ValueError of line 70 is raised. -/
def parse_time (s : String) : Except String Nat :=
  if hhmmssStart s then
    match splitOnColon s.data with
    | [f1, f2, f3] =>
      match digitsToNat? f1, digitsToNat? f2, digitsToNat? f3 with
      | some h, some m, some sec => .ok (h * 3600 + m * 60 + sec)
      | _, _, _ => .error "invalid literal for int() with base 10"
    | _ => .error "values to unpack"
  else if isDigitStr s then .ok (digitsVal s.data)
  else .error "Time format is invalid. Please use HH:MM:SS or seconds format."

/-- Spec-side predicate, used only to state claims: the string matches
HH:MM:SS exactly, that is it consists of exactly eight characters of the shape
two digits, colon, two digits, colon, two digits. This is what the spec words
mean by a string matching HH:MM:SS; compare with hhmmssStart, the prefix test
the code performs. -/
def specExactHHMMSS (s : String) : Bool :=
  s.data.length == 8 && hhmmssStart s

/-- Prefix test on strings, as Python str.startswith. -/
def strStartsWith (s p : String) : Bool :=
  p.data.isPrefixOf s.data

/-- Suffix test on strings, as Python str.endswith and as the glob pattern
star followed by a fixed suffix (fnmatch star matches any run of characters,
including the empty one and ones containing dots). -/
def strEndsWith (s p : String) : Bool :=
  p.data.isSuffixOf s.data

/-- Python pathlib stem of a file name: the name with its final dot-suffix
removed; a dot that is the first character or the last character of the name
does not begin a suffix. -/
def pyStem (name : String) : String :=
  match name.data.reverse with
  | [] => name
  | lastC :: _ =>
    if lastC = '.' then name
    else
      match name.data.reverse.dropWhile (fun c => c ≠ '.') with
      | [] => name
      | _ :: [] => name
      | _ :: restRev => ⟨restRev.reverse⟩

/-- Models the counting loop, src lines 114 to 118: over the directory entries
matched by the glob star plus underscore ethoc dot csv, count those whose stem
starts with the base name. -/
def observation_count (names : List String) (base : String) : Nat :=
  names.foldl
    (fun acc n =>
      if strEndsWith n "_ethoc.csv" && strStartsWith (pyStem n) base then acc + 1
      else acc)
    0

/-- Python str.zfill on an unsigned digit string (str of a Nat has no sign). -/
def zfill (s : String) (w : Nat) : String :=
  if w ≤ s.data.length then s else ⟨List.replicate (w - s.data.length) '0' ++ s.data⟩

/-- Models src line 272: base name, underscore, zero-padded run counter. -/
def base_file_name (base : String) (count padding : Nat) : String :=
  base ++ "_" ++ zfill (toString count) padding

/-- Models src line 246: the file name built inside write_csv from the base
file name and the per-file infix. -/
def csvFileName (outputBase tag : String) : String :=
  outputBase ++ tag ++ ".csv"

/-- Models the regex test on a polled key, src lines 160 and 177: the first
character of the key string is in the class A to Z, a to z, 0 to 9. -/
def isValidKey (s : String) : Bool :=
  match s.data with
  | [] => false
  | c :: _ => c.isAlpha || c.isDigit

/-- Python dict assignment d at key k set to v: replace the value of an
existing key in place, else append the new binding (insertion order kept). -/
def dictInsert {α β : Type} [BEq α] (l : List (α × β)) (k : α) (v : β) :
    List (α × β) :=
  if l.any (fun p => p.1 == k) then
    l.map (fun p => if p.1 == k then (k, v) else p)
  else l ++ [(k, v)]

/-- The mutable state of the recording loop: the variable key (the previously
accepted key, the active condition), the variable millis of the previous
iteration (previous elapsed time), and the two dictionaries strokes (the event
log) and stroke_summary (flattened to the list of appended key and delta
pairs, in order of appending). -/
structure RecState where
  key : String
  millis : Nat
  strokes : List (Nat × String)
  summary : List (String × Int)
  deriving DecidableEq, Repr

/-- Outcome of one recording-loop iteration: continue looping or break. -/
inductive StepResult where
  | cont (s : RecState)
  | stop (s : RecState)
  deriving DecidableEq, Repr

def stateOf : StepResult → RecState
  | .cont s => s
  | .stop s => s

/-- The value of the variable key after the validity test, src lines 175 to
181: the polled key if its first character is alphanumeric, else the previous
key is restored. -/
def effKey (s : RecState) (k : String) : String :=
  if isValidKey k then k else s.key

/-- Models one successful getkey iteration of the recording loop, src lines
175 to 218, for a key event at elapsed millisecond ev.1 with key string ev.2.
The interval delta from the previous press is appended to the previous key
before any branch. The display string seconds, built there as str of millis
with the last three characters cut, or the workaround value 0 when that cut is
empty, equals the decimal of millis divided by 1000, which is how it appears
in the timeout message. The stop key test precedes the timeout test, and an
invalid key falls through into the same time bookkeeping and logging with the
restored previous key. -/
def recStep (obs : Nat) (s : RecState) (ev : Nat × String) : StepResult :=
  if effKey s ev.2 = "P" then
    .stop { key := effKey s ev.2, millis := ev.1,
            strokes := dictInsert s.strokes ev.1 "End of recording - manual exit",
            summary := s.summary ++ [(s.key, (ev.1 : Int) - (s.millis : Int))] }
  else if obs ≠ 0 ∧ obs ≤ ev.1 / 1000 then
    .stop { key := effKey s ev.2, millis := ev.1,
            strokes := dictInsert s.strokes ev.1
              ("End of recording - time out after " ++ toString (ev.1 / 1000) ++
                " seconds"),
            summary := s.summary ++ [(s.key, (ev.1 : Int) - (s.millis : Int)),
                                     (s.key, -((ev.1 : Int) - (obs : Int) * 1000))] }
  else
    .cont { key := effKey s ev.2, millis := ev.1,
            strokes := dictInsert s.strokes ev.1 (effKey s ev.2),
            summary := s.summary ++ [(s.key, (ev.1 : Int) - (s.millis : Int))] }

/-- The state on entering the recording loop: key still holds the empty string
set at src line 143 (the waiting loop stores the accepted start key in the
separate variable stroke and never copies it into key), millis is zero, both
dictionaries are empty. -/
def initState : RecState :=
  { key := "", millis := 0, strokes := [], summary := [] }

/-- The recording loop over a list of key events. The boolean reports whether
the loop broke (the session terminated); events after a break are unread. -/
def recRun (obs : Nat) : RecState → List (Nat × String) → RecState × Bool
  | s, [] => (s, false)
  | s, ev :: rest =>
    match recStep obs s ev with
    | .cont s2 => recRun obs s2 rest
    | .stop s2 => (s2, true)

/-- Models the waiting loop, src lines 157 to 168: skip polled keys until the
first one whose first character is alphanumeric; return it with the unread
remainder. The accepted key only reaches the loop-local variable stroke. -/
def awaitStart : List String → Option (String × List String)
  | [] => none
  | k :: rest => if isValidKey k then some (k, rest) else awaitStart rest

/-- A whole capture session: the waiting loop must accept some start key, then
the recording loop runs from the initial state on the recording-phase events
(their elapsed times are measured from the start anchor taken after the
waiting loop). -/
def ethoSession (obs : Nat) (startKeys : List String)
    (evs : List (Nat × String)) : Option (RecState × Bool) :=
  match awaitStart startKeys with
  | none => none
  | some _ => some (recRun obs initState evs)

/-- Sum of the deltas appended for one key, as sum of stroke_summary at that
key in src line 266. -/
def sumFor (k : String) (l : List (String × Int)) : Int :=
  ((l.filter (fun p => decide (p.1 = k))).map Prod.snd).sum

/-- The keys of stroke_summary in insertion order of their first touch, which
is the iteration order of the summing loop at src line 265. -/
def firstKeys (l : List (String × Int)) : List String :=
  l.foldl (fun acc p => if acc.contains p.1 then acc else acc ++ [p.1]) []

/-- Models src lines 263 to 266: one summed entry per touched key. -/
def strokeSummarySums (l : List (String × Int)) : List (String × Int) :=
  (firstKeys l).map (fun k => (k, sumFor k l))

/-- Models src line 269: pop of the empty-string key from the sums dict. -/
def finalSummary (l : List (String × Int)) : List (String × Int) :=
  (strokeSummarySums l).filter (fun p => decide (p.1 ≠ ""))

/-- The two data sets the program writes: the event log and the finalized
summary, from a whole session. -/
def sessionOutputs (obs : Nat) (startKeys : List String)
    (evs : List (Nat × String)) :
    Option (List (Nat × String) × List (String × Int)) :=
  (ethoSession obs startKeys evs).map fun r => (r.1.strokes, finalSummary r.1.summary)

/-- Models the top level, src lines 106 to 124 and 256 onward: the observation
time argument is validated before any capture; on a parse failure
parser.error reports and the process exits non-zero, so the error branch
carries no outputs at all. A missing argument, like a parsed value of zero,
gives an unbounded observation. -/
def runProgram (obsTime : Option String) (startKeys : List String)
    (evs : List (Nat × String)) :
    Except String (Option (List (Nat × String) × List (String × Int))) :=
  match obsTime with
  | none => .ok (sessionOutputs 0 startKeys evs)
  | some ts =>
    match parse_time ts with
    | .error e => .error e
    | .ok n => .ok (sessionOutputs n startKeys evs)

/-- Models Python sorted with the key function taking the first component, as
called in write_csv at src line 251: a stable sort, ascending by key. -/
def sortByKey {α β : Type} [LinearOrder α] (data : List (α × β)) :
    List (α × β) :=
  data.insertionSort (fun p q => p.1 ≤ q.1)

/-- Models write_csv, src lines 231 to 252, as the list of written lines: the
header line first, then one key comma value line per dict entry, in ascending
key order. -/
def write_csv_lines {α β : Type} [LinearOrder α] (header : String)
    (renderK : α → String) (renderV : β → String) (data : List (α × β)) :
    List String :=
  header :: (sortByKey data).map (fun p => renderK p.1 ++ "," ++ renderV p.2)

/-! Helper lemmas shared by the claim theorems. -/

theorem sumFor_append (k : String) (a b : List (String × Int)) :
    sumFor k (a ++ b) = sumFor k a + sumFor k b := by
  simp [sumFor, List.filter_append]

theorem sumFor_single (k k1 : String) (v : Int) :
    sumFor k [(k1, v)] = if k1 = k then v else 0 := by
  by_cases h : k1 = k <;> simp [sumFor, h]

theorem recStep_cont_key (obs : Nat) (s : RecState) (ev : Nat × String)
    (s2 : RecState) (h : recStep obs s ev = .cont s2) :
    s2.key = effKey s ev.2 ∧ effKey s ev.2 ≠ "P" := by
  unfold recStep at h
  by_cases h1 : effKey s ev.2 = "P"
  · rw [if_pos h1] at h; exact absurd h (by simp)
  · rw [if_neg h1] at h
    by_cases h2 : obs ≠ 0 ∧ obs ≤ ev.1 / 1000
    · rw [if_pos h2] at h; exact absurd h (by simp)
    · rw [if_neg h2] at h
      injection h with h3
      exact ⟨by rw [← h3], h1⟩

theorem recRun_key_ne_P (obs : Nat) (evs : List (Nat × String)) :
    ∀ s : RecState, s.key ≠ "P" → (recRun obs s evs).2 = false →
      (recRun obs s evs).1.key ≠ "P" := by
  induction evs with
  | nil => intro s h _; simpa [recRun] using h
  | cons ev rest ih =>
    intro s h hterm
    rw [recRun] at hterm ⊢
    cases hstep : recStep obs s ev with
    | cont s2 =>
      rw [hstep] at hterm
      have hk := recStep_cont_key obs s ev s2 hstep
      exact ih s2 (by rw [hk.1]; exact hk.2) hterm
    | stop s2 =>
      rw [hstep] at hterm
      simp at hterm

theorem str_append_assoc (a b c : String) : a ++ b ++ c = a ++ (b ++ c) := by
  apply String.ext
  simp [String.data_append, List.append_assoc]

theorem observation_count_go (base : String) (names : List String) :
    ∀ acc : Nat,
      names.foldl
        (fun acc n =>
          if strEndsWith n "_ethoc.csv" && strStartsWith (pyStem n) base then
            acc + 1
          else acc)
        acc =
      acc + names.countP
        (fun n => strEndsWith n "_ethoc.csv" && strStartsWith (pyStem n) base) := by
  induction names with
  | nil => intro acc; simp
  | cons n rest ih =>
    intro acc
    rw [List.foldl_cons, List.countP_cons]
    cases h : (strEndsWith n "_ethoc.csv" && strStartsWith (pyStem n) base)
    · rw [if_neg (by simp), if_neg (by simp), ih acc]
      omega
    · rw [if_pos (by simp), if_pos (by simp), ih (acc + 1)]
      omega

theorem digitStr_no_colon_at (s : String) (h : isDigitStr s = true) (i : Nat) :
    charAtIs s.data i ':' = false := by
  unfold isDigitStr at h
  unfold charAtIs
  cases hc : s.data.get? i with
  | none => rfl
  | some c =>
    have hmem : c ∈ s.data := List.get?_mem hc
    have hcd : c.isDigit = true := by
      simp only [Bool.and_eq_true, List.all_eq_true] at h
      exact h.2 c hmem
    rw [beq_eq_false_iff_ne]
    intro hcc
    rw [Option.some.injEq] at hcc
    rw [hcc] at hcd
    exact absurd hcd (by decide)

theorem digitStr_not_hhmmss (s : String) (h : isDigitStr s = true) :
    hhmmssStart s = false := by
  unfold hhmmssStart
  rw [digitStr_no_colon_at s h 2]
  simp

/-! Claim theorems. -/

/-- C1, counterexample. The claim says a non-alphanumeric key event between
two valid presses creates no extra event-log row and leaves previous_elapsed
unchanged. In the code the invalid branch only restores the key variable and
then falls through into the time bookkeeping and logging: after a valid b at
1000 ms, an invalid press at 2000 ms adds the extra event-log row 2000 mapped
to b, advances the stored previous elapsed time from 1000 to 2000, and appends
a further delta for b. -/
theorem c1_counterexample :
    recRun 0 initState [(1000, "b"), (2000, "!")] =
      ({ key := "b", millis := 2000,
         strokes := [(1000, "b"), (2000, "b")],
         summary := [("", 1000), ("b", 1000)] }, false)
    ∧ (recRun 0 initState [(1000, "b"), (2000, "!")]).1.strokes.length ≠
        (recRun 0 initState [(1000, "b")]).1.strokes.length
    ∧ (recRun 0 initState [(1000, "b"), (2000, "!")]).1.millis ≠ 1000 := by
  refine ⟨by decide, by decide, by decide⟩

/-- C1, amended. During Recording with no timeout triggered, an invalid
(non-alphanumeric) key press keeps previous_key but does advance
previous_elapsed to its own elapsed time, appends the interim delta to the
previously active key, and writes an event-log row at its own timestamp
labelled with the previous key; the per-key summary totals are nevertheless
unchanged once the next press appends its delta, because the two deltas
telescope to the single delta that would have been appended without the
invalid press. -/
theorem c1_invalid_key_amended (obs : Nat) (s : RecState) (M : Nat)
    (k : String) (hk : isValidKey k = false) (hP : s.key ≠ "P")
    (hto : ¬(obs ≠ 0 ∧ obs ≤ M / 1000)) :
    recStep obs s (M, k) =
      .cont { key := s.key, millis := M,
              strokes := dictInsert s.strokes M s.key,
              summary := s.summary ++ [(s.key, (M : Int) - (s.millis : Int))] }
    ∧ ∀ k0 M2,
        sumFor k0 ((s.summary ++ [(s.key, (M : Int) - (s.millis : Int))]) ++
            [(s.key, (M2 : Int) - (M : Int))]) =
        sumFor k0 (s.summary ++ [(s.key, (M2 : Int) - (s.millis : Int))]) := by
  have heff : effKey s k = s.key := by rw [effKey, if_neg (by simp [hk])]
  constructor
  · rw [recStep]
    rw [if_neg (by rw [heff]; exact hP), if_neg hto, heff]
  · intro k0 M2
    rw [sumFor_append, sumFor_append, sumFor_append, sumFor_single,
      sumFor_single, sumFor_single]
    by_cases hkk : s.key = k0
    · simp [hkk]; ring
    · simp [hkk]

/-- C1, witness for the amended theorem at a concrete state and input. -/
theorem c1_invalid_key_amended_w :
    recStep 0 { key := "b", millis := 1000, strokes := [(1000, "b")],
                summary := [("", 1000)] } (2000, "!") =
      .cont { key := "b", millis := 2000,
              strokes := dictInsert [(1000, "b")] 2000 "b",
              summary := [("", 1000)] ++ [("b", (2000 : Int) - (1000 : Int))] } :=
  (c1_invalid_key_amended 0
    { key := "b", millis := 1000, strokes := [(1000, "b")],
      summary := [("", 1000)] }
    2000 "!" (by decide) (by decide) (by simp)).1

/-- C2. The claim expects the summary a mapped to 1500 and b mapped to 2500
for the manual-stop scenario. The code never copies the accepted start key
into the key variable, so the first interval is attributed to the empty
string and dropped by the finalize step: the written summary is b mapped to
2500 only, and the key a appears nowhere in it, while the event log is as the
claim states. The script output itself promises otherwise (it prints that it
will record this as initial key, and the docstring says the initial key press
sets the starting condition), so this is recorded as a code bug. -/
theorem c2_manual_stop_eval :
    sessionOutputs 0 ["a"] [(1500, "b"), (4000, "P")] =
      some ([(1500, "b"), (4000, "End of recording - manual exit")],
            [("b", 2500)])
    ∧ (sessionOutputs 0 ["a"] [(1500, "b"), (4000, "P")]).map
        (fun o => o.2.map Prod.fst) = some ["b"] := by
  refine ⟨by decide, by decide⟩

/-- C3. In every run the first delta of the recording loop is recorded under
the empty-string key (the key variable still holds the empty string when the
recording loop starts, whatever valid key started the session, and whatever
the first recorded event is), the finalize step removes the empty-string
entry, and the written summary never contains an empty-string key. -/
theorem c3_empty_key_invariant :
    (∀ (obs : Nat) (k0 k1 : String) (evs : List (Nat × String)),
      isValidKey k0 = true → isValidKey k1 = true →
        ethoSession obs [k0] evs = ethoSession obs [k1] evs)
    ∧ (∀ (obs : Nat) (ev : Nat × String),
        (stateOf (recStep obs initState ev)).summary.head? =
          some ("", (ev.1 : Int)))
    ∧ (∀ (l : List (String × Int)) (p : String × Int),
        p ∈ finalSummary l → p.1 ≠ "") := by
  refine ⟨?_, ?_, ?_⟩
  · intro obs k0 k1 evs h0 h1
    simp [ethoSession, awaitStart, h0, h1]
  · intro obs ev
    rw [recStep]
    by_cases h1 : effKey initState ev.2 = "P"
    · rw [if_pos h1]; simp [stateOf, initState]
    · rw [if_neg h1]
      by_cases h2 : obs ≠ 0 ∧ obs ≤ ev.1 / 1000
      · rw [if_pos h2]; simp [stateOf, initState]
      · rw [if_neg h2]; simp [stateOf, initState]
  · intro l p hp
    rw [finalSummary] at hp
    have := List.of_mem_filter hp
    simpa using this

/-- C3, witness instantiating each hypothesis of the invariant. -/
theorem c3_empty_key_invariant_w :
    ethoSession 0 ["a"] [(100, "b")] = ethoSession 0 ["z"] [(100, "b")]
    ∧ (("x", (5 : Int)).1 ≠ "") :=
  ⟨c3_empty_key_invariant.1 0 "a" "z" [(100, "b")] (by decide) (by decide),
   c3_empty_key_invariant.2.2 [("x", 5)] ("x", 5) (by decide)⟩

/-- C4, counterexample. The claim says any key event processed at elapsed M
with floor of M over 1000 at least N terminates the session with the timeout
event-log entry and the correction delta. The stop-key test comes first in the
code: the key P pressed at 4000 ms with a configured duration of 3 seconds
terminates with the manual-exit entry instead, and no correction delta is
appended. -/
theorem c4_counterexample :
    recStep 3 initState (4000, "P") =
      .stop { key := "P", millis := 4000,
              strokes := [(4000, "End of recording - manual exit")],
              summary := [("", 4000)] }
    ∧ ((stateOf (recStep 3 initState (4000, "P"))).strokes.all
        (fun p => p.2 ≠ "End of recording - time out after 4 seconds")) = true
    ∧ (stateOf (recStep 3 initState (4000, "P"))).summary.length = 1 := by
  refine ⟨by decide, by decide, by decide⟩

/-- C4, amended. If the observation duration N is positive, a key event is
processed at elapsed M with floor of M over 1000 at least N, and the effective
key (the pressed key if alphanumeric, else the retained previous key) is not
the stop key P, then after the interval delta for the previous key the
correction delta minus the quantity M minus N times 1000 is appended to that
same key, and the session terminates with the event-log entry naming the
timeout after floor of M over 1000 seconds; the two deltas of this step sum to
N times 1000 minus the previous elapsed time, so the active key s contribution
stops exactly at N times 1000 ms. When the effective key is P the manual exit
takes precedence instead. -/
theorem c4_timeout_amended (obs : Nat) (s : RecState) (M : Nat) (k : String)
    (hobs : obs ≠ 0) (hM : obs ≤ M / 1000)
    (hP : effKey s k ≠ "P") :
    recStep obs s (M, k) =
      .stop { key := effKey s k, millis := M,
              strokes := dictInsert s.strokes M
                ("End of recording - time out after " ++ toString (M / 1000) ++
                  " seconds"),
              summary := s.summary ++
                [(s.key, (M : Int) - (s.millis : Int)),
                 (s.key, -((M : Int) - (obs : Int) * 1000))] }
    ∧ ((M : Int) - (s.millis : Int)) + (-((M : Int) - (obs : Int) * 1000)) =
        (obs : Int) * 1000 - (s.millis : Int) := by
  constructor
  · rw [recStep]
    rw [if_neg hP, if_pos ⟨hobs, hM⟩]
  · ring

/-- C4, witness for the amended theorem at a concrete state and input. -/
theorem c4_timeout_amended_w :
    recStep 3 { key := "b", millis := 1500, strokes := [(1500, "b")],
                summary := [("", 1500)] } (4000, "c") =
      .stop { key := effKey { key := "b", millis := 1500,
                              strokes := [(1500, "b")],
                              summary := [("", 1500)] } "c",
              millis := 4000,
              strokes := dictInsert [(1500, "b")] 4000
                ("End of recording - time out after " ++ toString (4000 / 1000) ++
                  " seconds"),
              summary := [("", 1500)] ++
                [("b", (4000 : Int) - (1500 : Int)),
                 ("b", -((4000 : Int) - (3 : Int) * 1000))] } :=
  (c4_timeout_amended 3
    { key := "b", millis := 1500, strokes := [(1500, "b")],
      summary := [("", 1500)] }
    4000 "c" (by decide) (by decide) (by decide)).1

/-- C5. During Recording a press of the upper-case stop key P records the
manual-exit entry at its elapsed timestamp and breaks the loop, after the
interval delta for the previously active key was appended, and the event log
receives the exit label rather than the key P itself; this holds whatever the
configured duration, because the stop-key test precedes the timeout test. A
lower-case p is an ordinary valid key: it is logged under its own timestamp
and becomes the new active key. -/
theorem c5_stop_key :
    (∀ (obs : Nat) (s : RecState) (M : Nat),
      recStep obs s (M, "P") =
        .stop { key := "P", millis := M,
                strokes := dictInsert s.strokes M "End of recording - manual exit",
                summary := s.summary ++ [(s.key, (M : Int) - (s.millis : Int))] })
    ∧ (∀ (s : RecState) (M : Nat),
      recStep 0 s (M, "p") =
        .cont { key := "p", millis := M,
                strokes := dictInsert s.strokes M "p",
                summary := s.summary ++ [(s.key, (M : Int) - (s.millis : Int))] }) := by
  constructor
  · intro obs s M
    have heff : effKey s "P" = "P" := by rw [effKey, if_pos (by decide)]
    rw [recStep]
    rw [if_pos (by rw [heff]), heff]
  · intro s M
    have heff : effKey s "p" = "p" := by rw [effKey, if_pos (by decide)]
    rw [recStep]
    rw [if_neg (by rw [heff]; decide), if_neg (by simp), heff]

/-- C6. When a bounded observation time is configured, a non-alphanumeric key
event still goes through the elapsed-time computation, the delta append and
the timeout test, so an invalid press whose elapsed seconds reach the
configured duration itself terminates the session by timeout, with the
correction delta and the timeout marker attributed to the previously active
key. Stated over any reachable recording state: a run of the recording loop
from the initial state that has not yet terminated (such a state never has P
as its active key, so the stop-key branch cannot fire for the restored key). -/
theorem c6_invalid_timeout (obs : Nat) (evs : List (Nat × String)) (M : Nat)
    (k : String) (hobs : obs ≠ 0) (hk : isValidKey k = false)
    (hM : obs ≤ M / 1000)
    (hrun : (recRun obs initState evs).2 = false) :
    recStep obs (recRun obs initState evs).1 (M, k) =
      .stop { key := (recRun obs initState evs).1.key, millis := M,
              strokes := dictInsert (recRun obs initState evs).1.strokes M
                ("End of recording - time out after " ++ toString (M / 1000) ++
                  " seconds"),
              summary := (recRun obs initState evs).1.summary ++
                [((recRun obs initState evs).1.key,
                    (M : Int) - ((recRun obs initState evs).1.millis : Int)),
                 ((recRun obs initState evs).1.key,
                    -((M : Int) - (obs : Int) * 1000))] } := by
  have hP : (recRun obs initState evs).1.key ≠ "P" :=
    recRun_key_ne_P obs evs initState (by decide) hrun
  have heff : effKey (recRun obs initState evs).1 k =
      (recRun obs initState evs).1.key := by
    rw [effKey, if_neg (by simp [hk])]
  rw [recStep]
  rw [if_neg (by rw [heff]; exact hP), if_pos ⟨hobs, hM⟩, heff]

/-- C6, witness: with a three-second duration, after a valid b at 1500 ms an
invalid exclamation-mark press at 4000 ms itself triggers the timeout. -/
theorem c6_invalid_timeout_w :
    recStep 3 (recRun 3 initState [(1500, "b")]).1 (4000, "!") =
      .stop { key := (recRun 3 initState [(1500, "b")]).1.key, millis := 4000,
              strokes := dictInsert (recRun 3 initState [(1500, "b")]).1.strokes
                4000
                ("End of recording - time out after " ++ toString (4000 / 1000) ++
                  " seconds"),
              summary := (recRun 3 initState [(1500, "b")]).1.summary ++
                [((recRun 3 initState [(1500, "b")]).1.key,
                    (4000 : Int) - ((recRun 3 initState [(1500, "b")]).1.millis : Int)),
                 ((recRun 3 initState [(1500, "b")]).1.key,
                    -((4000 : Int) - (3 : Int) * 1000))] } :=
  c6_invalid_timeout 3 [(1500, "b")] 4000 "!" (by decide) (by decide)
    (by decide) (by decide)

/-- C7. Every entry of the finalized summary carries the sum of all deltas
appended for its key, and that per-key sum is invariant under any permutation
of the appended delta list, negative deltas (the timeout correction) included,
since the deltas live in the integers and integer addition is commutative. -/
theorem c7_summary_perm :
    (∀ (l : List (String × Int)) (p : String × Int),
      p ∈ strokeSummarySums l → p.2 = sumFor p.1 l)
    ∧ (∀ (k : String) (l l2 : List (String × Int)),
      l.Perm l2 → sumFor k l = sumFor k l2) := by
  constructor
  · intro l p hp
    rw [strokeSummarySums] at hp
    obtain ⟨k, hk, hpk⟩ := List.mem_map.1 hp
    rw [← hpk]
  · intro k l l2 h
    rw [sumFor, sumFor]
    exact ((h.filter _).map Prod.snd).sum_eq

/-- C7, witness: a summary entry against its delta sum, and a reordering of a
delta list containing a negative timeout correction. -/
theorem c7_summary_perm_w :
    ("b", (2500 : Int)).2 = sumFor "b" [("", 1500), ("b", 2500)]
    ∧ sumFor "b" [("b", 2500), ("b", -1000)] =
        sumFor "b" [("b", -1000), ("b", 2500)] :=
  ⟨c7_summary_perm.1 [("", 1500), ("b", 2500)] ("b", 2500) (by decide),
   c7_summary_perm.2 "b" [("b", 2500), ("b", -1000)] [("b", -1000), ("b", 2500)]
     (List.Perm.swap ("b", -1000) ("b", 2500) [])⟩

/-- C8, counterexample. The claim says a string matching neither HH:MM:SS nor
a plain non-negative integer makes the program fail before capture. The regex
is applied with re.match, a prefix test: the string 12:34:567 matches neither
(it has nine characters, so it is not of the exact HH:MM:SS shape, and it is
not all digits), yet parse_time accepts it as 12 hours, 34 minutes and 567
seconds, and the program proceeds to capture. -/
theorem c8_counterexample :
    specExactHHMMSS "12:34:567" = false
    ∧ isDigitStr "12:34:567" = false
    ∧ parse_time "12:34:567" = .ok 45807
    ∧ runProgram (some "12:34:567") ["a"] [] = .ok (some ([], [])) := by
  refine ⟨by decide, by decide, by rfl, by rfl⟩

/-- C8, amended. If the observation_time string neither begins with the
two-digits colon two-digits colon two-digits prefix nor is all digits, the
program fails with the configuration error before any capture starts and so
produces no outputs; a string that passes the prefix test is split on colons
and, when this yields exactly three integer fields h, m and sec, is converted
to h times 3600 plus m times 60 plus sec (the last field may extend past two
digits); an all-digit string converts to its integer value. Any parse error
aborts the program before the session runs. -/
theorem c8_parse_time_amended (s : String) :
    (hhmmssStart s = false → isDigitStr s = false →
      parse_time s =
        .error "Time format is invalid. Please use HH:MM:SS or seconds format.")
    ∧ (isDigitStr s = true → parse_time s = .ok (digitsVal s.data))
    ∧ (∀ (f1 f2 f3 : List Char) (h m sec : Nat), hhmmssStart s = true →
        splitOnColon s.data = [f1, f2, f3] →
        digitsToNat? f1 = some h → digitsToNat? f2 = some m →
        digitsToNat? f3 = some sec →
        parse_time s = .ok (h * 3600 + m * 60 + sec))
    ∧ (∀ (e : String) (startKeys : List String) (evs : List (Nat × String)),
        parse_time s = .error e →
        runProgram (some s) startKeys evs = .error e) := by
  refine ⟨?_, ?_, ?_, ?_⟩
  · intro h1 h2
    rw [parse_time, if_neg (by simp [h1]), if_neg (by simp [h2])]
  · intro h
    rw [parse_time, if_neg (by simp [digitStr_not_hhmmss s h]),
      if_pos (by simp [h])]
  · intro f1 f2 f3 h m sec hs hsplit h1 h2 h3
    rw [parse_time, if_pos (by simp [hs]), hsplit]
    simp [h1, h2, h3]
  · intro e startKeys evs h
    rw [runProgram, h]

/-- C8, witness for the amended parse behaviour on concrete strings. -/
theorem c8_parse_time_amended_w :
    parse_time "later" =
      .error "Time format is invalid. Please use HH:MM:SS or seconds format."
    ∧ parse_time "42" = .ok (digitsVal "42".data)
    ∧ parse_time "01:02:03" = .ok (1 * 3600 + 2 * 60 + 3)
    ∧ runProgram (some "later") ["a"] [] =
        .error "Time format is invalid. Please use HH:MM:SS or seconds format." :=
  ⟨(c8_parse_time_amended "later").1 (by decide) (by decide),
   (c8_parse_time_amended "42").2.1 (by decide),
   (c8_parse_time_amended "01:02:03").2.2.1 ['0', '1'] ['0', '2'] ['0', '3']
     1 2 3 (by decide) (by decide) (by decide) (by decide) (by decide),
   (c8_parse_time_amended "later").2.2.2 _ ["a"] []
     ((c8_parse_time_amended "later").1 (by decide) (by decide))⟩

/-- C9. The run index is exactly the number of directory entries whose name
ends in the ethoc csv suffix (the glob star matches any, possibly empty,
run of characters) and whose stem starts with the base name, a prefix test
rather than an exact-segment test; and the two output file names are the base
name, an underscore, the run index zero-padded to the padding width, and the
respective ethoc or summary csv ending. -/
theorem c9_run_index :
    (∀ (names : List String) (base : String),
      observation_count names base =
        names.countP
          (fun n => strEndsWith n "_ethoc.csv" && strStartsWith (pyStem n) base))
    ∧ (∀ (base : String) (count padding : Nat),
        csvFileName (base_file_name base count padding) "_ethoc" =
          base ++ "_" ++ zfill (toString count) padding ++ "_ethoc.csv"
        ∧ csvFileName (base_file_name base count padding) "_summary" =
          base ++ "_" ++ zfill (toString count) padding ++ "_summary.csv") := by
  constructor
  · intro names base
    rw [observation_count, observation_count_go]
    omega
  · intro base count padding
    constructor
    · have h1 : ("_ethoc" : String) ++ ".csv" = "_ethoc.csv" := by decide
      rw [csvFileName, base_file_name, str_append_assoc, h1]
    · have h1 : ("_summary" : String) ++ ".csv" = "_summary.csv" := by decide
      rw [csvFileName, base_file_name, str_append_assoc, h1]

instance keyLETotal {α β : Type} [LinearOrder α] :
    IsTotal (α × β) (fun p q => p.1 ≤ q.1) :=
  ⟨fun a b => le_total a.1 b.1⟩

instance keyLETrans {α β : Type} [LinearOrder α] :
    IsTrans (α × β) (fun p q => p.1 ≤ q.1) :=
  ⟨fun _ _ _ h1 h2 => le_trans h1 h2⟩

/-- C10. For every input dict, the writer output is the header line first,
then exactly one key comma value line per entry (the body lines are a
permutation of one rendered line per entry), with the rows in ascending key
order under the key type's linear order; instantiating the key type at Nat
gives the numeric order of the event log, at String the lexicographic order
of the summary. -/
theorem c10_write_sorted {α β : Type} [LinearOrder α] (header : String)
    (renderK : α → String) (renderV : β → String) (data : List (α × β)) :
    (write_csv_lines header renderK renderV data).head? = some header
    ∧ (write_csv_lines header renderK renderV data).tail.Perm
        (data.map (fun p => renderK p.1 ++ "," ++ renderV p.2))
    ∧ List.Sorted (fun a b => a ≤ b) ((sortByKey data).map Prod.fst) := by
  refine ⟨rfl, ?_, ?_⟩
  · rw [write_csv_lines, List.tail_cons, sortByKey]
    exact (List.perm_insertionSort _ data).map _
  · have hs := List.sorted_insertionSort (fun p q : α × β => p.1 ≤ q.1) data
    rw [sortByKey]
    exact List.pairwise_map.2 hs

end Ethocounter
